import Mathlib

/-!
Verification development for the Marketing-SMS-Platform compose engine
(`app/service.py`): a shallow embedding of the candidate resolver, ranking
engine, formatter and payload assembler, together with theorems checking the
specification's statements about them.

Modelling conventions, used throughout:

* A raw record-field value (CSV cell or vector-store payload entry) is
  modelled by `Raw`: Python `None` and the empty string are `Raw.absent`
  (these are exactly the values `_safe_cast` maps to `None` up front and the
  values that are falsy), a non-empty string rejected by Python's `float()`
  is `Raw.malformed s`, and a value that `float()` parses to the number `q`
  is `Raw.num q`.  Python floats are modelled as rationals: every finite
  float is an exact rational, and all arithmetic the code performs on the
  modelled values (`* 0.75`, `/ 1024`, comparisons) is exact on them.
* Python's `sorted(xs, key=k)` is a stable ascending sort; it is modelled by
  `List.insertionSort` with the relation `k a ≤ k b`, which is also a stable
  ascending sort, so the two agree.  `sorted(xs, key=k, reverse=True)`
  (stable descending) is modelled with the relation `k b ≤ k a`.
* `random.choice(pool)` is modelled by an extra natural-number argument
  `rnd` indexing the pool modulo its length: any concrete draw corresponds
  to some `rnd`, and every `rnd` corresponds to a possible draw.
* `date.today()` is modelled by an explicit `PyDate` argument.
* An uncaught exception escaping a compose function is modelled by `none`
  in an `Option` result.
-/

namespace MarketingSMS

/-- A raw record-field value as it arrives from the CSV catalogue or a
vector payload: absent (Python `None` or `""`), a non-empty string that
`float()` rejects, or a value parsing to the rational `q`. -/
inductive Raw where
  | absent
  | malformed (s : String)
  | num (q : ℚ)
  deriving DecidableEq, Repr

/-- `ComposeService._safe_cast` (service.py:321-328): `None` and `""` map to
`None`; otherwise `float(value)` is attempted, with `TypeError`/`ValueError`
mapped to `None`. -/
def safe_cast : Raw → Option ℚ
  | .absent => none
  | .malformed _ => none
  | .num q => some q

/-- Python truthiness of a raw field value.  Catalogue fields are CSV
strings, so any non-empty string — including `"0"` — is truthy; `None` and
`""` are falsy. -/
def pyTruthy : Raw → Bool
  | .absent => false
  | _ => true

/-- Python truthiness of an optional string (`None` and `""` are falsy). -/
def pyTruthyS : Option String → Bool
  | none => false
  | some s => s ≠ ""

/-- An offer record (a row of `offres.csv`, or a vector-store payload).
Fields the engine never reads are omitted. -/
structure Offre where
  cta : String
  famille : String
  libelle : Option String
  prix_dh : Raw
  volume : Raw
  minutes : Raw
  sms : Raw
  validite_jours : Raw
  zone : Option String
  link : Option String
  deriving DecidableEq, Repr

/-- A smartphone record (a row of `smartphones.csv`, or a vector-store
payload). -/
structure Smartphone where
  marque : String
  modele : Option String
  capacite : Option String
  prix_dh : Raw
  cta : Option String
  link : Option String
  deriving DecidableEq, Repr

/-- `CatalogData` (catalog.py:10-14). -/
structure CatalogData where
  offres : List Offre
  smartphones : List Smartphone
  version : Option String
  deriving Repr

/-- ASCII upper-casing of one character (`str.upper()` on the catalogue's
ASCII brand tokens). -/
def pyCharUpper (c : Char) : Char :=
  if 'a' ≤ c ∧ c ≤ 'z' then Char.ofNat (c.toNat - 32) else c

/-- Python's `str.upper()` (modelled for ASCII, which covers every brand
token the engine compares). -/
def pyToUpper (s : String) : String :=
  ⟨s.data.map pyCharUpper⟩

/-- Python's `str.startswith(prefix)`. -/
def pyStartsWith (s pre : String) : Bool :=
  pre.data.isPrefixOf s.data

/-- Occurrence of `needle` as a contiguous sublist of `hay`. -/
def subOcc (needle : List Char) : List Char → Bool
  | [] => needle.isPrefixOf []
  | c :: rest => needle.isPrefixOf (c :: rest) || subOcc needle rest

/-- Python's `needle in haystack` on strings. -/
def containsSub (haystack needle : String) : Bool :=
  subOcc needle.data haystack.data

/-- Python's stable ascending `sorted(xs, key=k)`. -/
def pySortBy {α : Type} (k : α → ℚ) (l : List α) : List α :=
  l.insertionSort (fun a b => k a ≤ k b)

/-- Python's stable descending `sorted(xs, key=k, reverse=True)`. -/
def pySortByDesc {α : Type} (k : α → ℚ) (l : List α) : List α :=
  l.insertionSort (fun a b => k b ≤ k a)

/-- The sort key `self._safe_cast(item.get("prix_dh")) or 0` used by
`_rank_offres` (service.py:238), `_local_offres` (service.py:309),
`_local_smartphones` (service.py:318) and `_query_qdrant` (service.py:302):
an absent or unparseable price — and, vacuously, a price of `0.0` — becomes
the key `0`. -/
def priceKey0 (r : Offre) : ℚ :=
  (safe_cast r.prix_dh).getD 0

/-- The same `or 0` price key for smartphone records. -/
def sPriceKey0 (s : Smartphone) : ℚ :=
  (safe_cast s.prix_dh).getD 0

/-- The volume key of `_rank_offres` (service.py:228-232):
`float(item.get("volume") or 0)` with exceptions mapped to `0.0`. -/
def volume_mb (r : Offre) : ℚ :=
  match r.volume with
  | .num q => q
  | _ => 0

/-- `ComposeService.ROTATING_CTAS` (service.py:40). -/
def ROTATING_CTAS : List String :=
  ["*6", "*5", "*4", "*3", "*2", "*1", "*22", "*88", "Forfait_Business"]

/-- `ComposeService._rank_offres` (service.py:224-243).  The rotating-CTA
branch returns `list(candidates)` (a copy, i.e. the same sequence), so it
coincides with the default branch. -/
def rank_offres (candidates : List Offre) (persona famille cta : String) :
    List Offre :=
  if candidates = [] then []
  else if famille = "USAGE_Internet" ∧
      (persona = "PROFIL_Internet" ∨ persona = "PROFIL_ReseauxSociaux") then
    pySortByDesc volume_mb candidates
  else if pyStartsWith famille "RISQUE_" ∨ pyStartsWith persona "CHURN_" ∨
      persona = "PROFIL_Econome" then
    pySortBy priceKey0 candidates
  else if cta ∈ ROTATING_CTAS then
    candidates
  else
    candidates

/-- `ComposeService._local_offres` (service.py:305-310): keep the offers
matching both `cta` and `famille`, else those matching `cta` alone, and sort
ascending by the `or 0` price key. -/
def local_offres (catalog : CatalogData) (famille cta : String) : List Offre :=
  let strict := catalog.offres.filter fun o => o.cta = cta ∧ o.famille = famille
  let fallback := catalog.offres.filter fun o => o.cta = cta
  let candidates := if strict = [] then fallback else strict
  pySortBy priceKey0 candidates

/-- `ComposeService._local_smartphones` (service.py:312-319). -/
def local_smartphones (catalog : CatalogData) (brand : String) :
    List Smartphone :=
  let records := catalog.smartphones
  let records :=
    if brand ≠ "" then
      let filtered := records.filter fun s => pyToUpper s.marque = brand
      if filtered ≠ [] then filtered else records
    else records
  pySortBy sPriceKey0 records

/-- Outcome of the optional Qdrant adapter, as observed by the resolver:
the client is absent (`self.qdrant is None`), a query raises (the exception
is caught and yields no candidates), or the queries return payload lists.
For offers, `results primary relaxed` holds the result of the
{type, cta, famille} query and of the relaxed {type, cta} query; for
smartphones only `primary` is used (a single query is issued).  Successful
query results arrive already sorted by `_query_qdrant` (service.py:302). -/
inductive Adapter (α : Type) where
  | unavailable
  | failing
  | results (primary relaxed : List α)

/-- `ComposeService._query_offre` (service.py:245-269): take the primary
vector hits, else the relaxed ones; if the adapter is unavailable, raised,
or produced nothing, fall back to the local catalogue. -/
def query_offre (adapter : Adapter Offre) (catalog : CatalogData)
    (famille cta : String) : List Offre :=
  let fromVector :=
    match adapter with
    | .unavailable => []
    | .failing => []
    | .results primary relaxed => if primary = [] then relaxed else primary
  if fromVector = [] then local_offres catalog famille cta else fromVector

/-- `ComposeService._query_smartphone` (service.py:271-286). -/
def query_smartphone (adapter : Adapter Smartphone) (catalog : CatalogData)
    (brand : String) : List Smartphone :=
  let fromVector :=
    match adapter with
    | .unavailable => []
    | .failing => []
    | .results primary _ => primary
  if fromVector = [] then local_smartphones catalog brand else fromVector

/-- Truncation toward zero: Python's `int(...)` applied to a float. -/
def pyTrunc (q : ℚ) : ℤ :=
  if 0 ≤ q then ⌊q⌋ else ⌈q⌉

/-- Python's `round(...)` to an integer: round half to even. -/
def pyRound (q : ℚ) : ℤ :=
  let f := ⌊q⌋
  let r := q - f
  if r < 1 / 2 then f
  else if 1 / 2 < r then f + 1
  else if f % 2 = 0 then f else f + 1

/-- Fuel-indexed worker for `pyReplaceAll`; the fuel bounds the number of
steps (each step consumes at least one character). -/
def replaceAux (pat rep : List Char) : List Char → ℕ → List Char
  | l, 0 => l
  | l, fuel + 1 =>
    if pat ≠ [] ∧ pat.isPrefixOf l then
      rep ++ replaceAux pat rep (l.drop pat.length) fuel
    else
      match l with
      | [] => []
      | c :: rest => c :: replaceAux pat rep rest fuel

/-- Python's `str.replace(pat, rep)`: replace every (left-to-right,
non-overlapping) occurrence.  The engine only calls it with the non-empty
pattern `".0"`, so the empty-pattern corner of Python's semantics is not
modelled. -/
def pyReplaceAll (s pat rep : String) : String :=
  ⟨replaceAux pat.data rep.data s.data (s.data.length)⟩

/-- Python's `f"{x:.1f}"` on the exact value `x = q`: one decimal digit,
rounding half to even.  The engine reaches this only with `q ≥ 1`
(`gb = mb / 1024` with `mb ≥ 1024`), where this agrees with CPython. -/
def fmtOneDec (q : ℚ) : String :=
  let n := pyRound (q * 10)
  toString (n.ediv 10) ++ "." ++ toString (n.emod 10)

/-- `ComposeService._fmt_volume` (service.py:70-83): `None`/`""` and
unparseable values yield no display field; at least 1024 MB is rendered in
Go (as an integer when within `1e-6` of one, else with one decimal and a
cosmetic `".0"` strip), below that as truncated integer Mo. -/
def fmt_volume : Raw → Option String
  | .absent => none
  | .malformed _ => none
  | .num mb =>
    if mb ≥ 1024 then
      let gb := mb / 1024
      if |gb - (pyRound gb : ℚ)| < 1 / 1000000 then
        some (toString (pyRound gb) ++ " Go")
      else
        some (pyReplaceAll (fmtOneDec gb ++ " Go") ".0" "")
    else
      some (toString (pyTrunc mb) ++ " Mo")

/-- `ComposeService._fmt_minutes` (service.py:85-95): parse via
`int(float(value))`; a negative minute count displays as `"illimite"`. -/
def fmt_minutes : Raw → Option String
  | .absent => none
  | .malformed _ => none
  | .num q =>
    let mins := pyTrunc q
    if mins < 0 then some "illimite"
    else some (toString mins ++ " min")

/-- `ComposeService._pick_discount` (service.py:97-102): 75% of the base
price, Python-rounded, floored at 1; no discount without a base price. -/
def pick_discount : Option ℚ → Option ℤ
  | none => none
  | some price => some (max (pyRound (price * (3 / 4))) 1)

/-- `ComposeService._norm_brand` (service.py:104-119): first alias whose key
occurs in the uppercased input wins (Python dicts iterate in insertion
order); unmapped brands normalise to `""`. -/
def norm_brand (value : String) : String :=
  let lookup : List (String × String) :=
    [("IPHONE", "APPLE"), ("APPLE", "APPLE"), ("SAMSUNG", "SAMSUNG"),
     ("XIAOMI", "XIAOMI"), ("OPPO", "OPPO"), ("HONOR", "HONOR"),
     ("TECNO", "TECNO")]
  let upper := pyToUpper value
  match lookup.find? (fun kv => containsSub upper kv.1) with
  | some kv => kv.2
  | none => ""

/-- `MONTHS_FR` (service.py:23-36). -/
def MONTHS_FR : List String :=
  ["janvier", "fevrier", "mars", "avril", "mai", "juin", "juillet", "aout",
   "septembre", "octobre", "novembre", "decembre"]

/-- A calendar date, standing in for `date.today()`. -/
structure PyDate where
  year : ℕ
  month : ℕ
  day : ℕ

/-- Gregorian leap-year rule (as implemented by `datetime`). -/
def isLeap (y : ℕ) : Bool :=
  (y % 4 = 0 ∧ y % 100 ≠ 0) ∨ y % 400 = 0

/-- Number of days in a month (as implemented by `datetime`). -/
def daysInMonth (y m : ℕ) : ℕ :=
  if m = 2 then (if isLeap y then 29 else 28)
  else if m = 4 ∨ m = 6 ∨ m = 9 ∨ m = 11 then 30
  else 31

/-- `ComposeService._deadline_eom_fr` (service.py:64-68):
`today.replace(day=1) + 1 month - 1 day` is the last day of the current
month; rendered as `"<day> <french month>"`. -/
def deadline_eom_fr (today : PyDate) : String :=
  toString (daysInMonth today.year today.month) ++ " " ++
    (MONTHS_FR.getD (today.month - 1) "")

/-- `random.choice(l)` modelled by an index argument: `rnd % l.length`
ranges over exactly the positions of `l`. -/
def pyChoice {α : Type} (l : List α) (rnd : ℕ) : Option α :=
  l.get? (rnd % l.length)

/-- Python's `min(l, key=key)` (`none` on an empty list, which in Python
raises): the first element attaining the minimal key. -/
def pyMinBy {α : Type} (key : α → WithTop ℚ) : List α → Option α
  | [] => none
  | x :: xs => some (xs.foldl (fun b y => if key y < key b then y else b) x)

/-- The key of the `PROFIL_Econome` minimum in `compose_offre`
(service.py:130-135): the parsed price, or `float("inf")` when absent. -/
def priceKeyTop (r : Offre) : WithTop ℚ :=
  match safe_cast r.prix_dh with
  | some q => (q : WithTop ℚ)
  | none => ⊤

/-- The ascending base list of `_select_smartphone_candidate`
(service.py:334-340): if any candidate has a parseable price, the priced
candidates sorted ascending by price (the unpriced ones are dropped);
otherwise the candidates in input order.  The source builds
`(item, price)` pairs and sorts the pairs with price keys; filtering first
and sorting by the parsed price is the same stable process. -/
def sorted_asc (candidates : List Smartphone) : List Smartphone :=
  let priced := candidates.filter fun s => (safe_cast s.prix_dh).isSome
  if priced = [] then candidates else pySortBy sPriceKey0 priced

/-- The `OPPORTUNITE_AchatNouveaute` pool of `_select_smartphone_candidate`
(service.py:349-359): the brand matches, preferring the top 3 most
expensive priced ones; empty when nothing matches the brand. -/
def nouveautePool (candidates : List Smartphone) (brand : String) :
    List Smartphone :=
  let brand_items := candidates.filter fun s => pyToUpper s.marque = brand
  if brand_items ≠ [] then
    let brand_with_price :=
      brand_items.filter fun s => (safe_cast s.prix_dh).isSome
    if brand_with_price ≠ [] then
      (pySortByDesc sPriceKey0 brand_with_price).take 3
    else
      brand_items.take 3
  else []

/-- The persona-specific pool of `_select_smartphone_candidate`
(service.py:342-361), before the `if not pool: pool = sorted_asc`
fallback. -/
def smartphonePoolCore (candidates : List Smartphone) (persona brand : String) :
    List Smartphone :=
  let asc := sorted_asc candidates
  if persona = "OPPORTUNITE_AchatSmartphone" then
    asc.take 15
  else if persona = "OPPORTUNITE_PerformanceSmartphone" then
    asc.reverse.take 15
  else if persona = "OPPORTUNITE_AchatNouveaute" ∧ brand ≠ "" then
    nouveautePool candidates brand
  else asc

/-- The pool actually drawn from, after the `if not pool: pool = sorted_asc`
fallback (service.py:363-364). -/
def smartphonePool (candidates : List Smartphone) (persona brand : String) :
    List Smartphone :=
  let pool := smartphonePoolCore candidates persona brand
  if pool = [] then sorted_asc candidates else pool

/-- `ComposeService._select_smartphone_candidate` (service.py:330-367):
`none` on an empty candidate list, else `random.choice` over the
persona-specific pool. -/
def select_smartphone_candidate (candidates : List Smartphone)
    (persona brand : String) (rnd : ℕ) : Option Smartphone :=
  if candidates = [] then none
  else
    let pool := smartphonePool candidates persona brand
    if pool = [] then none else pyChoice pool rnd

/-- The `chosen` computation of `compose_offre` (service.py:129-139):
`PROFIL_Econome` takes the global price minimum (absent = `inf`); other
personas draw uniformly from the ranked list when the famille is not
`OPPORTUNITE_Achat_Equipement` and more than one candidate remains;
otherwise the first ranked candidate is taken. -/
def select_offre (ranked : List Offre) (persona famille : String) (rnd : ℕ) :
    Option Offre :=
  if ranked = [] then none
  else if persona = "PROFIL_Econome" then
    pyMinBy priceKeyTop ranked
  else if famille ≠ "OPPORTUNITE_Achat_Equipement" ∧ 1 < ranked.length then
    pyChoice ranked rnd
  else
    ranked.head?

/-- The `offer_context` map of the composed payload (§3 of the spec).
A key that the source sets to a possibly-`None` value (`modele`,
`capacite`) is modelled by the corresponding `Option` directly; no claim
distinguishes a key bound to `None` from a missing key. -/
structure OfferContext where
  offre : String
  volume : Option String
  minutes : Option String
  sms : Option ℤ
  validite : Option String
  prix_dh : Option ℚ
  destinations : Option String
  details : Option String
  modele : Option String
  capacite : Option String
  deriving DecidableEq, Repr

/-- `promo_context` of the composed payload. -/
structure PromoContext where
  prix_promo_dh : ℤ
  deriving DecidableEq, Repr

/-- The composed payload (`_base_llm_payload`, service.py:201-222). -/
structure Payload where
  persona : String
  famille : String
  cta : String
  deadline : String
  offer_context : OfferContext
  promo_context : Option PromoContext
  links_details : String
  deriving DecidableEq, Repr

/-- An `OfferContext` holding only a generic offer name. -/
def genericOffer (name : String) : OfferContext :=
  ⟨name, none, none, none, none, none, none, none, none, none⟩

/-- `ComposeService._base_llm_payload` (service.py:201-222).  `promo_context`
is set only when the computed discount is truthy (non-`None` and
non-zero). -/
def base_llm_payload (persona famille cta : String)
    (offer_context : OfferContext) (link : String) (price : Option ℚ)
    (today : PyDate) : Payload :=
  let promo : Option PromoContext :=
    match pick_discount price with
    | none => none
    | some d => if d = 0 then none else some ⟨d⟩
  ⟨persona, famille, cta, deadline_eom_fr today, offer_context, promo, link⟩

/-- `int(float(v))` applied to a truthy raw field (`if sms: ... int(float(sms))`,
service.py:150-153).  The outer `none` is an uncaught `ValueError` (the
field is a truthy, unparseable string); `some none` means the field was
falsy and skipped. -/
def pyIntTruthy : Raw → Option (Option ℤ)
  | .absent => some none
  | .num q => some (some (pyTrunc q))
  | .malformed _ => none

/-- The `offer` map built for a chosen candidate in `compose_offre`
(service.py:140-159).  `none` models the `ValueError` the source raises on
a truthy unparseable `sms` or `validite_jours` field. -/
def offer_context_of (chosen : Offre) (cta : String) : Option OfferContext :=
  match pyIntTruthy chosen.sms, pyIntTruthy chosen.validite_jours with
  | some smsField, some validiteField =>
    some
      ⟨(if pyTruthyS chosen.libelle then chosen.libelle.getD ""
        else "Pass " ++ cta),
       fmt_volume chosen.volume,
       fmt_minutes chosen.minutes,
       smsField,
       validiteField.map (fun n => toString n ++ " jours"),
       safe_cast chosen.prix_dh,
       (if pyTruthyS chosen.zone then chosen.zone else none),
       (if pyTruthyS chosen.link then chosen.link else none),
       none,
       none⟩
  | _, _ => none

/-- `ComposeService.compose_offre` (service.py:122-168).  The result is
`none` exactly when the source would raise (truthy unparseable
`sms`/`validite_jours` on the chosen record); the `ranked = []` and
`select_offre = none` branches mirror the source's "offer left at its
default" path and are in fact unreachable for non-empty input. -/
def compose_offre (adapter : Adapter Offre) (catalog : CatalogData)
    (persona famille cta : String) (rnd : ℕ) (today : PyDate) :
    Option Payload :=
  let candidates := query_offre adapter catalog famille cta
  let fallbackPayload :=
    base_llm_payload persona famille cta (genericOffer ("Pass " ++ cta))
      "https://bit.ly/Recharge_IAM" none today
  if candidates = [] then some fallbackPayload
  else
    let ranked := rank_offres candidates persona famille cta
    if ranked = [] then some fallbackPayload
    else
      match select_offre ranked persona famille rnd with
      | none => some fallbackPayload
      | some chosen =>
        match offer_context_of chosen cta with
        | none => none
        | some oc =>
          let price := safe_cast chosen.prix_dh
          let link :=
            if pyTruthyS oc.details then oc.details.getD ""
            else "https://bit.ly/Recharge_IAM"
          some (base_llm_payload persona famille cta oc link price today)

/-- `ComposeService.compose_smartphone` (service.py:170-198). -/
def compose_smartphone (adapter : Adapter Smartphone) (catalog : CatalogData)
    (persona famille hset_brand : String) (rnd : ℕ) (today : PyDate) :
    Payload :=
  let brand := norm_brand hset_brand
  let candidates := query_smartphone adapter catalog brand
  match select_smartphone_candidate candidates persona brand rnd with
  | none =>
    base_llm_payload persona famille "" (genericOffer "Smartphone")
      "https://offres.iam.ma/smartphones" none today
  | some chosen =>
    let price := safe_cast chosen.prix_dh
    let oc : OfferContext :=
      ⟨"Smartphone", none, none, none, none, price, none, none,
       chosen.modele, chosen.capacite⟩
    let link :=
      if pyTruthyS chosen.link then chosen.link.getD ""
      else "https://offres.iam.ma/smartphones"
    let cta := if pyTruthyS chosen.cta then chosen.cta.getD "" else ""
    base_llm_payload persona famille cta oc link price today

/-- Modelled from the spec's words, for comparison with the source's pool
(claim C3): "pool = 15 cheapest (ascending by price; items with absent
price sort last using +infinity, not 0)". -/
def specPoolAchatSmartphone (candidates : List Smartphone) :
    List Smartphone :=
  let key : Smartphone → WithTop ℚ := fun s =>
    match safe_cast s.prix_dh with
    | some q => (q : WithTop ℚ)
    | none => ⊤
  (candidates.insertionSort fun a b => key a ≤ key b).take 15

/-! ### Concrete fixtures used to instantiate the theorems -/

/-- A `*3` churn offer whose price field is absent. -/
def oAbsent : Offre :=
  ⟨"*3", "RISQUE_Churn", some "Pass X", .absent, .absent, .absent, .absent,
   .absent, none, none⟩

/-- A `*3` churn offer priced 10. -/
def o10 : Offre :=
  ⟨"*3", "RISQUE_Churn", some "Pass Y", .num 10, .absent, .absent, .absent,
   .absent, none, none⟩

/-- Internet offers with volumes 500, 2000 and 1000 MB. -/
def oV500 : Offre :=
  ⟨"I1", "USAGE_Internet", some "Pass 500", .absent, .num 500, .absent,
   .absent, .absent, none, none⟩

def oV2000 : Offre :=
  ⟨"I2", "USAGE_Internet", some "Pass 2000", .absent, .num 2000, .absent,
   .absent, .absent, none, none⟩

def oV1000 : Offre :=
  ⟨"I3", "USAGE_Internet", some "Pass 1000", .absent, .num 1000, .absent,
   .absent, .absent, none, none⟩

/-- Churn offers priced 50, 10 and 30. -/
def oP50 : Offre :=
  ⟨"*9", "RISQUE_Churn", some "Pass 50", .num 50, .absent, .absent, .absent,
   .absent, none, none⟩

def oP10 : Offre :=
  ⟨"*9", "RISQUE_Churn", some "Pass 10", .num 10, .absent, .absent, .absent,
   .absent, none, none⟩

def oP30 : Offre :=
  ⟨"*9", "RISQUE_Churn", some "Pass 30", .num 30, .absent, .absent, .absent,
   .absent, none, none⟩

/-- A Samsung smartphone priced 100. -/
def sS : Smartphone :=
  ⟨"SAMSUNG", some "Galaxy", some "128", .num 100, none, none⟩

/-- A smartphone record with no parseable price. -/
def sNoPrice : Smartphone :=
  ⟨"XIAOMI", some "Redmi", none, .absent, none, none⟩

/-! ### General lemmas about the embedded primitives -/

section Helpers

variable {α : Type}

lemma perm_pySortBy (k : α → ℚ) (l : List α) : (pySortBy k l).Perm l :=
  List.perm_insertionSort _ l

lemma mem_pySortBy {k : α → ℚ} {l : List α} {a : α} :
    a ∈ pySortBy k l ↔ a ∈ l :=
  (perm_pySortBy k l).mem_iff

lemma pairwise_pySortBy (k : α → ℚ) (l : List α) :
    (pySortBy k l).Pairwise fun a b => k a ≤ k b := by
  haveI : IsTotal α fun a b => k a ≤ k b := ⟨fun a b => le_total (k a) (k b)⟩
  haveI : IsTrans α fun a b => k a ≤ k b := ⟨fun _ _ _ hab hbc => le_trans hab hbc⟩
  exact List.sorted_insertionSort _ l

lemma perm_pySortByDesc (k : α → ℚ) (l : List α) :
    (pySortByDesc k l).Perm l :=
  List.perm_insertionSort _ l

lemma pairwise_pySortByDesc (k : α → ℚ) (l : List α) :
    (pySortByDesc k l).Pairwise fun a b => k b ≤ k a := by
  haveI : IsTotal α fun a b => k b ≤ k a := ⟨fun a b => le_total (k b) (k a)⟩
  haveI : IsTrans α fun a b => k b ≤ k a := ⟨fun _ _ _ hab hbc => le_trans hbc hab⟩
  exact List.sorted_insertionSort _ l

lemma mem_pySortByDesc {k : α → ℚ} {l : List α} {a : α} :
    a ∈ pySortByDesc k l ↔ a ∈ l :=
  (perm_pySortByDesc k l).mem_iff

lemma pySortBy_ne_nil {k : α → ℚ} {l : List α} (h : l ≠ []) :
    pySortBy k l ≠ [] := by
  intro h0
  have hp := perm_pySortBy k l
  rw [h0] at hp
  exact h hp.symm.eq_nil

lemma pyChoice_mem {l : List α} (h : l ≠ []) (rnd : ℕ) :
    ∃ a, pyChoice l rnd = some a ∧ a ∈ l := by
  have hlen : 0 < l.length := List.length_pos.mpr h
  have hlt : rnd % l.length < l.length := Nat.mod_lt _ hlen
  exact ⟨l.get ⟨rnd % l.length, hlt⟩, by simp [pyChoice, List.get?_eq_get hlt],
    List.get_mem _ _ _⟩

lemma pyChoice_mem_of_eq {l : List α} {rnd : ℕ} {a : α}
    (h : pyChoice l rnd = some a) : a ∈ l :=
  List.get?_mem h

lemma foldlMin_spec (key : α → WithTop ℚ) :
    ∀ (ys : List α) (b : α),
      (ys.foldl (fun b y => if key y < key b then y else b) b) ∈ b :: ys ∧
      key (ys.foldl (fun b y => if key y < key b then y else b) b) ≤ key b ∧
      ∀ y ∈ ys, key (ys.foldl (fun b y => if key y < key b then y else b) b) ≤ key y := by
  intro ys
  induction ys with
  | nil => intro b; simp
  | cons y t ih =>
    intro b
    obtain ⟨hmem, hle, hall⟩ := ih (if key y < key b then y else b)
    have hb : key (if key y < key b then y else b) ≤ key b := by
      split
      · exact le_of_lt (by assumption)
      · exact le_rfl
    have hy : key (if key y < key b then y else b) ≤ key y := by
      split
      · exact le_rfl
      · exact le_of_not_lt (by assumption)
    refine ⟨?_, ?_, ?_⟩
    · rcases List.mem_cons.mp hmem with he | ht
      · rw [List.foldl_cons, he]
        split
        · exact List.mem_cons_of_mem _ (List.mem_cons_self _ _)
        · exact List.mem_cons_self _ _
      · exact List.mem_cons_of_mem _ (List.mem_cons_of_mem _ ht)
    · exact le_trans hle hb
    · intro z hz
      rcases List.mem_cons.mp hz with rfl | hz
      · exact le_trans hle hy
      · exact hall z hz

lemma pyMinBy_spec (key : α → WithTop ℚ) {l : List α} (h : l ≠ []) :
    ∃ m, pyMinBy key l = some m ∧ m ∈ l ∧ ∀ x ∈ l, key m ≤ key x := by
  obtain ⟨x, xs, rfl⟩ := List.exists_cons_of_ne_nil h
  obtain ⟨hmem, hle, hall⟩ := foldlMin_spec key xs x
  refine ⟨_, rfl, ?_, ?_⟩
  · exact hmem
  · intro z hz
    rcases List.mem_cons.mp hz with rfl | hz
    · exact hle
    · exact hall z hz

end Helpers

/-! ### Lemmas about the engine's record-level helpers -/

lemma priceKeyTop_eq_top {r : Offre} :
    priceKeyTop r = ⊤ ↔ safe_cast r.prix_dh = none := by
  unfold priceKeyTop
  cases h : safe_cast r.prix_dh <;> simp

lemma sorted_asc_subset {c : List Smartphone} {x : Smartphone}
    (hx : x ∈ sorted_asc c) : x ∈ c := by
  simp only [sorted_asc] at hx
  split_ifs at hx
  · exact hx
  · exact List.mem_of_mem_filter (mem_pySortBy.mp hx)

lemma sorted_asc_ne_nil {c : List Smartphone} (h : c ≠ []) :
    sorted_asc c ≠ [] := by
  simp only [sorted_asc]
  split_ifs
  · exact h
  · exact pySortBy_ne_nil (by assumption)

lemma nouveautePool_subset {c : List Smartphone} {b : String}
    {x : Smartphone} (hx : x ∈ nouveautePool c b) : x ∈ c := by
  simp only [nouveautePool] at hx
  split_ifs at hx
  · exact List.mem_of_mem_filter
      (List.mem_of_mem_filter (mem_pySortByDesc.mp (List.take_subset _ _ hx)))
  · exact List.mem_of_mem_filter (List.take_subset _ _ hx)
  · simp at hx

lemma smartphonePoolCore_subset {c : List Smartphone} {p b : String}
    {x : Smartphone} (hx : x ∈ smartphonePoolCore c p b) : x ∈ c := by
  unfold smartphonePoolCore at hx
  split_ifs at hx
  · exact sorted_asc_subset (List.take_subset _ _ hx)
  · exact sorted_asc_subset (List.mem_reverse.mp (List.take_subset _ _ hx))
  · exact nouveautePool_subset hx
  · exact sorted_asc_subset hx

lemma smartphonePool_subset {c : List Smartphone} {p b : String}
    {x : Smartphone} (hx : x ∈ smartphonePool c p b) : x ∈ c := by
  simp only [smartphonePool] at hx
  split_ifs at hx
  · exact sorted_asc_subset hx
  · exact smartphonePoolCore_subset hx

lemma smartphonePool_ne_nil {c : List Smartphone} {p b : String}
    (h : c ≠ []) : smartphonePool c p b ≠ [] := by
  simp only [smartphonePool]
  split_ifs
  · exact sorted_asc_ne_nil h
  · assumption

lemma pyRound_nearest (q : ℚ) : |(pyRound q : ℚ) - q| ≤ 1 / 2 := by
  have h0 : (⌊q⌋ : ℚ) ≤ q := Int.floor_le q
  have h1 : q < ⌊q⌋ + 1 := Int.lt_floor_add_one q
  simp only [pyRound]
  split_ifs with hc1 hc2 hc3 <;>
    · rw [abs_le]
      constructor <;> push_cast <;> linarith

/-! ### Claim theorems -/

/-- C9: the parse/format helpers never raise (they are total functions in
this embedding) and return "absent" (`none`) on absent or malformed input;
on well-formed input they produce the documented displays: 1024 MB →
`"1 Go"`, 1536 MB → `"1.5 Go"`, 512 MB → `"512 Mo"`, and a negative parsed
minute count → the unlimited marker `"illimite"`. -/
theorem C9_formatters_total_and_documented :
    (∀ s, safe_cast (.malformed s) = none) ∧
    safe_cast .absent = none ∧
    (∀ s, fmt_volume (.malformed s) = none) ∧
    fmt_volume .absent = none ∧
    (∀ s, fmt_minutes (.malformed s) = none) ∧
    fmt_minutes .absent = none ∧
    fmt_volume (.num 1024) = some "1 Go" ∧
    fmt_volume (.num 1536) = some "1.5 Go" ∧
    fmt_volume (.num 512) = some "512 Mo" ∧
    fmt_minutes (.num (-1)) = some "illimite" ∧
    (∀ q : ℚ, pyTrunc q < 0 → fmt_minutes (.num q) = some "illimite") := by
  refine ⟨fun s => rfl, rfl, fun s => rfl, rfl, fun s => rfl, rfl,
    ?_, ?_, ?_, ?_, ?_⟩
  · have h : (1024 : ℚ) / 1024 = 1 := by norm_num
    have h2 : pyRound ((1 : ℚ)) = 1 := by norm_num [pyRound]
    simp only [fmt_volume, h, h2]
    rw [if_pos (by norm_num), if_pos (by norm_num)]
    decide
  · have h : (1536 : ℚ) / 1024 = 3 / 2 := by norm_num
    have h2 : pyRound ((3 / 2 : ℚ)) = 2 := by norm_num [pyRound]
    have h3 : pyRound ((3 / 2 : ℚ) * 10) = 15 := by norm_num [pyRound]
    have habs : |(3 : ℚ) / 2 - ((2 : ℤ) : ℚ)| = 1 / 2 := by
      rw [abs_of_nonpos (by norm_num)]
      norm_num
    simp only [fmt_volume, h, h2, fmtOneDec, h3, habs]
    rw [if_pos (by norm_num), if_neg (by norm_num)]
    decide
  · have h2 : pyTrunc (512 : ℚ) = 512 := by norm_num [pyTrunc]
    simp only [fmt_volume, h2]
    rw [if_neg (by norm_num)]
    decide
  · have h : pyTrunc (-1 : ℚ) = -1 := by norm_num [pyTrunc, Int.ceil_neg]
    simp [fmt_minutes, h]
  · intro q hq
    simp [fmt_minutes, hq]

/-- Witness for C9: the negative-minutes rule applied at `-1`. -/
theorem C9_formatters_witness : fmt_minutes (.num (-1)) = some "illimite" := by
  have h : pyTrunc (-1 : ℚ) < 0 := by norm_num [pyTrunc, Int.ceil_neg]
  exact C9_formatters_total_and_documented.2.2.2.2.2.2.2.2.2.2 (-1) h

/-- C7: the promotional price of a parseable base price `p` is a nearest
integer to `0.75 * p` (Python's round), floored at 1; `100 → 75`, `1 → 1`;
an absent base price yields no promotional price, and the assembled payload
then carries no `promo_context`. -/
theorem C7_promo_price :
    pick_discount none = none ∧
    (∀ p : ℚ, ∃ n : ℤ, pick_discount (some p) = some (max n 1) ∧
      1 ≤ max n 1 ∧ |(n : ℚ) - p * (3 / 4)| ≤ 1 / 2) ∧
    pick_discount (some 100) = some 75 ∧
    pick_discount (some 1) = some 1 ∧
    ∀ persona famille cta oc link today,
      (base_llm_payload persona famille cta oc link none today).promo_context
        = none := by
  refine ⟨rfl, ?_, ?_, ?_, fun persona famille cta oc link today => rfl⟩
  · intro p
    refine ⟨pyRound (p * (3 / 4)), rfl, le_max_right _ _, ?_⟩
    exact pyRound_nearest (p * (3 / 4))
  · have h : (100 : ℚ) * (3 / 4) = 75 := by norm_num
    have h2 : pyRound ((75 : ℚ)) = 75 := by norm_num [pyRound]
    simp [pick_discount, h, h2]
  · have h : (1 : ℚ) * (3 / 4) = 3 / 4 := by norm_num
    have h2 : pyRound ((3 / 4 : ℚ)) = 1 := by norm_num [pyRound]
    simp [pick_discount, h, h2]

/-- C4: for `PROFIL_Econome` on a non-empty ranked list, offer selection
returns a candidate whose price key (absent = +∞) is minimal — so a
candidate with absent price is chosen only when every candidate's price is
absent — and the result does not depend on the randomness argument. -/
theorem C4_econome_min :
    ∀ (ranked : List Offre) (famille : String) (rnd rnd' : ℕ),
      ranked ≠ [] →
      ∃ m, select_offre ranked "PROFIL_Econome" famille rnd = some m ∧
        m ∈ ranked ∧
        (∀ x ∈ ranked, priceKeyTop m ≤ priceKeyTop x) ∧
        (safe_cast m.prix_dh = none → ∀ x ∈ ranked, safe_cast x.prix_dh = none) ∧
        select_offre ranked "PROFIL_Econome" famille rnd'
          = select_offre ranked "PROFIL_Econome" famille rnd := by
  intro ranked famille rnd rnd' h
  obtain ⟨m, hm, hmem, hall⟩ := pyMinBy_spec priceKeyTop h
  have hsel : ∀ k : ℕ, select_offre ranked "PROFIL_Econome" famille k
      = pyMinBy priceKeyTop ranked := by
    intro k
    simp [select_offre, h]
  refine ⟨m, by rw [hsel, hm], hmem, hall, ?_, by rw [hsel, hsel]⟩
  intro habs x hx
  have htop : priceKeyTop m = ⊤ := priceKeyTop_eq_top.mpr habs
  have : priceKeyTop x = ⊤ := top_le_iff.mp (htop ▸ hall x hx)
  exact priceKeyTop_eq_top.mp this

/-- Witness for C4 at a two-offer list (priced 10, price absent): selection
picks the priced offer for any two draws of randomness. -/
theorem C4_econome_min_witness :
    ∃ m, select_offre [o10, oAbsent] "PROFIL_Econome" "RISQUE_Churn" 0 = some m ∧
      m ∈ [o10, oAbsent] ∧
      (∀ x ∈ [o10, oAbsent], priceKeyTop m ≤ priceKeyTop x) ∧
      (safe_cast m.prix_dh = none →
        ∀ x ∈ [o10, oAbsent], safe_cast x.prix_dh = none) ∧
      select_offre [o10, oAbsent] "PROFIL_Econome" "RISQUE_Churn" 7
        = select_offre [o10, oAbsent] "PROFIL_Econome" "RISQUE_Churn" 0 :=
  C4_econome_min [o10, oAbsent] "RISQUE_Churn" 0 7 (by decide)

/-- C10: smartphone selection returns `none` exactly on an empty candidate
list, and on a non-empty list it always returns one of the candidates,
whatever the persona and brand. -/
theorem C10_select_total :
    ∀ (cands : List Smartphone) (persona brand : String) (rnd : ℕ),
      (select_smartphone_candidate cands persona brand rnd = none ↔ cands = []) ∧
      ∀ r, select_smartphone_candidate cands persona brand rnd = some r →
        r ∈ cands := by
  intro cands persona brand rnd
  by_cases hc : cands = []
  · subst hc
    refine ⟨by simp [select_smartphone_candidate], ?_⟩
    intro r hr
    simp [select_smartphone_candidate] at hr
  · have hpool : smartphonePool cands persona brand ≠ [] :=
      smartphonePool_ne_nil hc
    obtain ⟨a, ha, hamem⟩ := pyChoice_mem hpool rnd
    have hsel : select_smartphone_candidate cands persona brand rnd = some a := by
      simp [select_smartphone_candidate, hc, hpool, ha]
    refine ⟨by rw [hsel]; simp [hc], ?_⟩
    intro r hr
    rw [hsel] at hr
    obtain rfl : a = r := by injection hr
    exact smartphonePool_subset hamem

/-- Witness for C10 on a one-element candidate list. -/
theorem C10_select_total_witness : sS ∈ [sS] :=
  (C10_select_total [sS] "PROFIL_Econome" "" 0).2 sS (by decide)

/-- Counterexample to C2: for `OPPORTUNITE_AchatNouveaute` with requested
brand `"APPLE"` and a single Samsung candidate (so no record matches the
brand), selection still returns the Samsung record — not `none` as the
claim states. -/
theorem C2_counterexample :
    pyToUpper sS.marque ≠ "APPLE" ∧
    select_smartphone_candidate [sS] "OPPORTUNITE_AchatNouveaute" "APPLE" 0
      = some sS := by
  constructor
  · decide
  · decide

/-- C2 as amended: when no candidate matches the requested brand, the brand
pool is empty and selection falls back to the full ascending-by-price list,
returning some member of the candidate list; `none` only occurs for an
empty candidate list. -/
theorem C2_amended :
    ∀ (cands : List Smartphone) (brand : String) (rnd : ℕ),
      brand ≠ "" →
      (∀ s ∈ cands, pyToUpper s.marque ≠ brand) →
      cands ≠ [] →
      nouveautePool cands brand = [] ∧
      ∃ r, select_smartphone_candidate cands "OPPORTUNITE_AchatNouveaute"
          brand rnd = some r ∧ r ∈ cands := by
  intro cands brand rnd hb hnone hc
  have hbi : cands.filter (fun s => pyToUpper s.marque = brand) = [] := by
    rw [List.filter_eq_nil_iff]
    intro s hs
    simpa using hnone s hs
  have hpool0 : nouveautePool cands brand = [] := by
    simp [nouveautePool, hbi]
  refine ⟨hpool0, ?_⟩
  have hcore : smartphonePoolCore cands "OPPORTUNITE_AchatNouveaute" brand
      = [] := by
    simp only [smartphonePoolCore]
    rw [if_neg (by decide), if_neg (by decide), if_pos ⟨trivial, hb⟩]
    exact hpool0
  have hpool : smartphonePool cands "OPPORTUNITE_AchatNouveaute" brand
      = sorted_asc cands := by
    simp [smartphonePool, hcore]
  have hasc : smartphonePool cands "OPPORTUNITE_AchatNouveaute" brand ≠ [] :=
    smartphonePool_ne_nil hc
  obtain ⟨a, ha, hamem⟩ := pyChoice_mem hasc rnd
  refine ⟨a, ?_, smartphonePool_subset hamem⟩
  simp [select_smartphone_candidate, hc, hasc, ha]

/-- Witness for C2 as amended, at a one-Samsung list and brand APPLE. -/
theorem C2_amended_witness :
    nouveautePool [sS] "APPLE" = [] ∧
    ∃ r, select_smartphone_candidate [sS] "OPPORTUNITE_AchatNouveaute"
        "APPLE" 3 = some r ∧ r ∈ [sS] :=
  C2_amended [sS] "APPLE" 3 (by decide) (by decide) (by decide)

/-- Counterexample to C1: in the ascending-price branch of `_rank_offres`
and in the local fallback sort, a record with an absent price is keyed `0`
and therefore sorted first (highest priority), not last as the claim
requires: with candidates [absent-price, price 10] both sorts put the
absent-price record first. -/
theorem C1_counterexample :
    safe_cast oAbsent.prix_dh = none ∧
    rank_offres [o10, oAbsent] "persona" "RISQUE_Churn" "*3"
      = [oAbsent, o10] ∧
    local_offres ⟨[o10, oAbsent], [], none⟩ "RISQUE_Churn" "*3"
      = [oAbsent, o10] := by
  refine ⟨rfl, by decide, by decide⟩

/-- C1 as amended: the ascending-price rankings (rule 2 of `rank_offers`
and the resolver's local fallback) treat an absent or unparseable price as
the key `0` — sorting such records ahead of any positively priced record,
not last — while the Formatter does omit absent numeric fields from the
output (and the payload carries no promotional price without a base
price). -/
theorem C1_amended :
    (∀ r : Offre, safe_cast r.prix_dh = none → priceKey0 r = 0) ∧
    (∀ (cands : List Offre) (persona famille cta : String),
      ¬(famille = "USAGE_Internet" ∧
        (persona = "PROFIL_Internet" ∨ persona = "PROFIL_ReseauxSociaux")) →
      (pyStartsWith famille "RISQUE_" ∨ pyStartsWith persona "CHURN_" ∨
        persona = "PROFIL_Econome") →
      (rank_offres cands persona famille cta).Perm cands ∧
      (rank_offres cands persona famille cta).Pairwise
        fun a b => priceKey0 a ≤ priceKey0 b) ∧
    (∀ (catalog : CatalogData) (famille cta : String),
      (local_offres catalog famille cta).Pairwise
        fun a b => priceKey0 a ≤ priceKey0 b) ∧
    fmt_volume .absent = none ∧
    fmt_minutes .absent = none ∧
    (∀ s, fmt_volume (.malformed s) = none) ∧
    (∀ s, fmt_minutes (.malformed s) = none) ∧
    (∀ ch cta oc, offer_context_of ch cta = some oc →
      safe_cast ch.prix_dh = none → oc.prix_dh = none) ∧
    ∀ persona famille cta oc link today,
      (base_llm_payload persona famille cta oc link none today).promo_context
        = none := by
  refine ⟨?_, ?_, ?_, rfl, rfl, fun s => rfl, fun s => rfl, ?_, ?_⟩
  · intro r h
    simp [priceKey0, h]
  · intro cands persona famille cta h1 h2
    by_cases hc : cands = []
    · subst hc
      exact ⟨by simp [rank_offres], by simp [rank_offres]⟩
    · have hr : rank_offres cands persona famille cta
          = pySortBy priceKey0 cands := by
        simp only [rank_offres]
        rw [if_neg hc, if_neg h1, if_pos h2]
      rw [hr]
      exact ⟨perm_pySortBy _ _, pairwise_pySortBy _ _⟩
  · intro catalog famille cta
    exact pairwise_pySortBy _ _
  · intro ch cta oc hoc habs
    cases hs : pyIntTruthy ch.sms with
    | none => simp [offer_context_of, hs] at hoc
    | some sf =>
      cases hv : pyIntTruthy ch.validite_jours with
      | none => simp [offer_context_of, hs, hv] at hoc
      | some vf =>
        simp only [offer_context_of, hs, hv, Option.some.injEq] at hoc
        subst hoc
        simpa using habs
  · intro persona famille cta oc link today
    rfl

/-- Witness for C1 as amended: the ascending-price ranking rule applied to
the churn fixtures. -/
theorem C1_amended_witness :
    (rank_offres [o10, oAbsent] "persona" "RISQUE_Churn" "*3").Perm
        [o10, oAbsent] ∧
    (rank_offres [o10, oAbsent] "persona" "RISQUE_Churn" "*3").Pairwise
        fun a b => priceKey0 a ≤ priceKey0 b :=
  C1_amended.2.1 [o10, oAbsent] "persona" "RISQUE_Churn" "*3" (by decide)
    (by decide)

/-- C6: the ranking policy — rule 1 (Internet famille with an Internet or
social persona) sorts descending by data volume, rule 2 (risk famille,
churn persona, or `PROFIL_Econome`) sorts ascending by price with absent
price keyed `0`, and in all remaining cases (rotating CTA or default) the
incoming order is preserved; with the documented concrete instances. -/
theorem C6_rank_policies :
    (∀ (cands : List Offre) (persona famille cta : String),
      famille = "USAGE_Internet" →
      (persona = "PROFIL_Internet" ∨ persona = "PROFIL_ReseauxSociaux") →
      (rank_offres cands persona famille cta).Perm cands ∧
      (rank_offres cands persona famille cta).Pairwise
        fun a b => volume_mb b ≤ volume_mb a) ∧
    (∀ (cands : List Offre) (persona famille cta : String),
      ¬(famille = "USAGE_Internet" ∧
        (persona = "PROFIL_Internet" ∨ persona = "PROFIL_ReseauxSociaux")) →
      (pyStartsWith famille "RISQUE_" ∨ pyStartsWith persona "CHURN_" ∨
        persona = "PROFIL_Econome") →
      (rank_offres cands persona famille cta).Perm cands ∧
      (rank_offres cands persona famille cta).Pairwise
        fun a b => priceKey0 a ≤ priceKey0 b) ∧
    (∀ (cands : List Offre) (persona famille cta : String),
      ¬(famille = "USAGE_Internet" ∧
        (persona = "PROFIL_Internet" ∨ persona = "PROFIL_ReseauxSociaux")) →
      ¬(pyStartsWith famille "RISQUE_" ∨ pyStartsWith persona "CHURN_" ∨
        persona = "PROFIL_Econome") →
      rank_offres cands persona famille cta = cands) ∧
    rank_offres [oV500, oV2000, oV1000] "PROFIL_Internet" "USAGE_Internet" "X"
      = [oV2000, oV1000, oV500] ∧
    rank_offres [oP50, oP10, oP30] "anything" "RISQUE_Churn" "*9"
      = [oP10, oP30, oP50] := by
  refine ⟨?_, ?_, ?_, by decide, by decide⟩
  · intro cands persona famille cta h1 h2
    by_cases hc : cands = []
    · subst hc
      exact ⟨by simp [rank_offres], by simp [rank_offres]⟩
    · have hr : rank_offres cands persona famille cta
          = pySortByDesc volume_mb cands := by
        simp only [rank_offres]
        rw [if_neg hc, if_pos ⟨h1, h2⟩]
      rw [hr]
      exact ⟨perm_pySortByDesc _ _, pairwise_pySortByDesc _ _⟩
  · intro cands persona famille cta h1 h2
    by_cases hc : cands = []
    · subst hc
      exact ⟨by simp [rank_offres], by simp [rank_offres]⟩
    · have hr : rank_offres cands persona famille cta
          = pySortBy priceKey0 cands := by
        simp only [rank_offres]
        rw [if_neg hc, if_neg h1, if_pos h2]
      rw [hr]
      exact ⟨perm_pySortBy _ _, pairwise_pySortBy _ _⟩
  · intro cands persona famille cta h1 h2
    by_cases hc : cands = []
    · subst hc
      simp [rank_offres]
    · simp only [rank_offres]
      rw [if_neg hc, if_neg h1, if_neg h2]
      split <;> rfl

/-- Witness for C6: rule 1 applied to the Internet-volume fixtures. -/
theorem C6_rank_policies_witness :
    (rank_offres [oV500, oV2000, oV1000] "PROFIL_Internet" "USAGE_Internet"
        "X").Perm [oV500, oV2000, oV1000] ∧
    (rank_offres [oV500, oV2000, oV1000] "PROFIL_Internet" "USAGE_Internet"
        "X").Pairwise fun a b => volume_mb b ≤ volume_mb a :=
  C6_rank_policies.1 [oV500, oV2000, oV1000] "PROFIL_Internet"
    "USAGE_Internet" "X" rfl (Or.inl rfl)

/-- C5: whenever the vector adapter is unavailable, raises, or returns no
results, `_query_offre` returns exactly the local fallback: the catalogue
records matching both cta and famille — or, if that set is empty, those
matching cta alone — sorted ascending by price with an absent price keyed
`0` (sorted first). -/
theorem C5_resolver_fallback :
    ∀ (catalog : CatalogData) (famille cta : String) (adapter : Adapter Offre),
      (adapter = .unavailable ∨ adapter = .failing ∨ adapter = .results [] []) →
      query_offre adapter catalog famille cta
        = local_offres catalog famille cta ∧
      ((catalog.offres.filter fun o => o.cta = cta ∧ o.famille = famille) ≠ [] →
        (local_offres catalog famille cta).Perm
          (catalog.offres.filter fun o => o.cta = cta ∧ o.famille = famille)) ∧
      ((catalog.offres.filter fun o => o.cta = cta ∧ o.famille = famille) = [] →
        (local_offres catalog famille cta).Perm
          (catalog.offres.filter fun o => o.cta = cta)) ∧
      (local_offres catalog famille cta).Pairwise
        (fun a b => priceKey0 a ≤ priceKey0 b) ∧
      ∀ r : Offre, safe_cast r.prix_dh = none → priceKey0 r = 0 := by
  intro catalog famille cta adapter hA
  refine ⟨?_, ?_, ?_, pairwise_pySortBy _ _, fun r h => by simp [priceKey0, h]⟩
  · rcases hA with rfl | rfl | rfl <;> rfl
  · intro hs
    simp only [local_offres]
    rw [if_neg hs]
    exact perm_pySortBy _ _
  · intro hs
    simp only [local_offres]
    rw [if_pos hs]
    exact perm_pySortBy _ _

/-- Witness for C5 at a concrete two-offer catalogue with an unavailable
adapter. -/
theorem C5_resolver_fallback_witness :
    query_offre .unavailable ⟨[o10, oAbsent], [], none⟩ "RISQUE_Churn" "*3"
      = local_offres ⟨[o10, oAbsent], [], none⟩ "RISQUE_Churn" "*3" ∧
    (([o10, oAbsent].filter fun o =>
        o.cta = "*3" ∧ o.famille = "RISQUE_Churn") ≠ [] →
      (local_offres ⟨[o10, oAbsent], [], none⟩ "RISQUE_Churn" "*3").Perm
        ([o10, oAbsent].filter fun o =>
          o.cta = "*3" ∧ o.famille = "RISQUE_Churn")) ∧
    (([o10, oAbsent].filter fun o =>
        o.cta = "*3" ∧ o.famille = "RISQUE_Churn") = [] →
      (local_offres ⟨[o10, oAbsent], [], none⟩ "RISQUE_Churn" "*3").Perm
        ([o10, oAbsent].filter fun o => o.cta = "*3")) ∧
    (local_offres ⟨[o10, oAbsent], [], none⟩ "RISQUE_Churn" "*3").Pairwise
      (fun a b => priceKey0 a ≤ priceKey0 b) ∧
    ∀ r : Offre, safe_cast r.prix_dh = none → priceKey0 r = 0 :=
  C5_resolver_fallback ⟨[o10, oAbsent], [], none⟩ "RISQUE_Churn" "*3"
    .unavailable (Or.inl rfl)

/-- C8: with an empty catalogue and a vector backend that is unavailable,
failing, or empty, both compose operations still produce a payload whose
`offer_context` is exactly the generic name (`"Pass <cta>"` for offers,
`"Smartphone"` for equipment) with no numeric fields, and no promotional
price — the offer path does not raise either. -/
theorem C8_generic_payload_on_empty :
    ∀ (persona famille cta hset_brand : String) (rnd : ℕ) (today : PyDate)
      (aO : Adapter Offre) (aS : Adapter Smartphone),
      (aO = .unavailable ∨ aO = .failing ∨ aO = .results [] []) →
      (aS = .unavailable ∨ aS = .failing ∨ aS = .results [] []) →
      compose_offre aO ⟨[], [], none⟩ persona famille cta rnd today
        = some (base_llm_payload persona famille cta
            (genericOffer ("Pass " ++ cta)) "https://bit.ly/Recharge_IAM"
            none today) ∧
      (compose_offre aO ⟨[], [], none⟩ persona famille cta rnd
          today).map Payload.offer_context
        = some (genericOffer ("Pass " ++ cta)) ∧
      (compose_offre aO ⟨[], [], none⟩ persona famille cta rnd
          today).map Payload.promo_context = some none ∧
      (compose_smartphone aS ⟨[], [], none⟩ persona famille hset_brand rnd
          today).offer_context = genericOffer "Smartphone" ∧
      (compose_smartphone aS ⟨[], [], none⟩ persona famille hset_brand rnd
          today).promo_context = none := by
  intro persona famille cta hset_brand rnd today aO aS hO hS
  have hsm : local_smartphones ⟨[], [], none⟩ (norm_brand hset_brand) = [] := by
    simp only [local_smartphones]
    split_ifs <;> simp [pySortBy]
  have hq : query_smartphone aS ⟨[], [], none⟩ (norm_brand hset_brand) = [] := by
    rcases hS with rfl | rfl | rfl <;>
      simp [query_smartphone, hsm]
  have hoffre : compose_offre aO ⟨[], [], none⟩ persona famille cta rnd today
      = some (base_llm_payload persona famille cta
          (genericOffer ("Pass " ++ cta)) "https://bit.ly/Recharge_IAM"
          none today) := by
    rcases hO with rfl | rfl | rfl <;> rfl
  have hphone : compose_smartphone aS ⟨[], [], none⟩ persona famille
      hset_brand rnd today
      = base_llm_payload persona famille "" (genericOffer "Smartphone")
          "https://offres.iam.ma/smartphones" none today := by
    simp [compose_smartphone, hq, select_smartphone_candidate]
  exact ⟨hoffre, by rw [hoffre]; rfl, by rw [hoffre]; rfl,
    by rw [hphone]; rfl, by rw [hphone]; rfl⟩

/-- Witness for C8 at concrete request values. -/
theorem C8_generic_payload_on_empty_witness :
    compose_offre .unavailable ⟨[], [], none⟩ "PROFIL_Econome" "RISQUE_Churn"
        "*3" 0 ⟨2026, 10, 12⟩
      = some (base_llm_payload "PROFIL_Econome" "RISQUE_Churn" "*3"
          (genericOffer ("Pass " ++ "*3")) "https://bit.ly/Recharge_IAM"
          none ⟨2026, 10, 12⟩) ∧
    (compose_offre .unavailable ⟨[], [], none⟩ "PROFIL_Econome" "RISQUE_Churn"
        "*3" 0 ⟨2026, 10, 12⟩).map Payload.offer_context
      = some (genericOffer ("Pass " ++ "*3")) ∧
    (compose_offre .unavailable ⟨[], [], none⟩ "PROFIL_Econome" "RISQUE_Churn"
        "*3" 0 ⟨2026, 10, 12⟩).map Payload.promo_context = some none ∧
    (compose_smartphone .unavailable ⟨[], [], none⟩ "OPPORTUNITE_AchatSmartphone"
        "OPPORTUNITE_Achat_Equipement" "iPhone" 0
        ⟨2026, 10, 12⟩).offer_context = genericOffer "Smartphone" ∧
    (compose_smartphone .unavailable ⟨[], [], none⟩ "OPPORTUNITE_AchatSmartphone"
        "OPPORTUNITE_Achat_Equipement" "iPhone" 0
        ⟨2026, 10, 12⟩).promo_context = none :=
  C8_generic_payload_on_empty "PROFIL_Econome" "RISQUE_Churn" "*3" "iPhone" 0
    ⟨2026, 10, 12⟩ .unavailable .unavailable (Or.inl rfl) (Or.inl rfl)

lemma smartphonePool_achat (cands : List Smartphone) (brand : String)
    (h : cands ≠ []) :
    smartphonePool cands "OPPORTUNITE_AchatSmartphone" brand
      = (sorted_asc cands).take 15 := by
  have hcore : smartphonePoolCore cands "OPPORTUNITE_AchatSmartphone" brand
      = (sorted_asc cands).take 15 := by
    simp only [smartphonePoolCore]
    rw [if_pos (by decide)]
  have htake : (sorted_asc cands).take 15 ≠ [] := by
    intro h0
    rcases List.take_eq_nil_iff.mp h0 with h15 | hnil
    · exact absurd h15 (by decide)
    · exact sorted_asc_ne_nil h hnil
  simp only [smartphonePool, hcore]
  rw [if_neg htake]

lemma pairwise_key_of_zero {β : Type} (k : β → ℚ) :
    ∀ l : List β, (∀ x ∈ l, k x = 0) → l.Pairwise fun a b => k a ≤ k b := by
  intro l
  induction l with
  | nil => intro _; exact List.Pairwise.nil
  | cons x t ih =>
    intro h
    refine List.Pairwise.cons ?_ (ih fun y hy => h y (List.mem_cons_of_mem _ hy))
    intro y hy
    rw [h x (List.mem_cons_self _ _), h y (List.mem_cons_of_mem _ hy)]

lemma pairwise_take_drop {β : Type} {R : β → β → Prop} {l : List β}
    (h : l.Pairwise R) (n : ℕ) :
    ∀ x ∈ l.take n, ∀ y ∈ l.drop n, R x y :=
  (List.pairwise_append.mp (by rw [List.take_append_drop]; exact h)).2.2

/-- Counterexample to C3: with candidates [Samsung priced 100, unpriced
Xiaomi], the spec's pool (ascending with absent price last as +∞) is both
records, but the code's pool drops the unpriced record entirely, and no
draw can ever return it (index 1 would pick the unpriced record from the
spec pool, but the code returns the Samsung). -/
theorem C3_counterexample :
    specPoolAchatSmartphone [sS, sNoPrice] = [sS, sNoPrice] ∧
    smartphonePool [sS, sNoPrice] "OPPORTUNITE_AchatSmartphone" "" = [sS] ∧
    select_smartphone_candidate [sS, sNoPrice] "OPPORTUNITE_AchatSmartphone"
      "" 1 = some sS ∧
    sNoPrice ∉ smartphonePool [sS, sNoPrice] "OPPORTUNITE_AchatSmartphone" "" := by
  refine ⟨by decide, by decide, by decide, by decide⟩

/-- C3 as amended: for `OPPORTUNITE_AchatSmartphone` on a non-empty list,
the pool is the 15 cheapest among the candidates with a parseable price,
ascending (unpriced candidates are excluded whenever at least one priced
candidate exists; when none has a price the pool is the first 15 in input
order), and every call returns a member of that pool. -/
theorem C3_amended :
    ∀ (cands : List Smartphone) (brand : String) (rnd : ℕ),
      cands ≠ [] →
      (∃ r, select_smartphone_candidate cands "OPPORTUNITE_AchatSmartphone"
          brand rnd = some r ∧
        r ∈ smartphonePool cands "OPPORTUNITE_AchatSmartphone" brand) ∧
      (smartphonePool cands "OPPORTUNITE_AchatSmartphone" brand).length ≤ 15 ∧
      (∀ x ∈ smartphonePool cands "OPPORTUNITE_AchatSmartphone" brand,
        x ∈ cands) ∧
      (smartphonePool cands "OPPORTUNITE_AchatSmartphone" brand).Pairwise
        (fun a b => sPriceKey0 a ≤ sPriceKey0 b) ∧
      (cands.filter (fun s => (safe_cast s.prix_dh).isSome) = [] →
        smartphonePool cands "OPPORTUNITE_AchatSmartphone" brand
          = cands.take 15) ∧
      (cands.filter (fun s => (safe_cast s.prix_dh).isSome) ≠ [] →
        smartphonePool cands "OPPORTUNITE_AchatSmartphone" brand
          = (pySortBy sPriceKey0
              (cands.filter fun s => (safe_cast s.prix_dh).isSome)).take 15 ∧
        (∀ x ∈ smartphonePool cands "OPPORTUNITE_AchatSmartphone" brand,
          (safe_cast x.prix_dh).isSome) ∧
        ∀ x ∈ smartphonePool cands "OPPORTUNITE_AchatSmartphone" brand,
          ∀ y ∈ cands, (safe_cast y.prix_dh).isSome →
            y ∉ smartphonePool cands "OPPORTUNITE_AchatSmartphone" brand →
            sPriceKey0 x ≤ sPriceKey0 y) := by
  intro cands brand rnd h
  have hpool := smartphonePool_achat cands brand h
  have hpoolne : smartphonePool cands "OPPORTUNITE_AchatSmartphone" brand
      ≠ [] := smartphonePool_ne_nil h
  obtain ⟨r, hr, hrmem⟩ := pyChoice_mem hpoolne rnd
  refine ⟨⟨r, by simp [select_smartphone_candidate, h, hpoolne, hr], hrmem⟩,
    by rw [hpool]; exact List.length_take_le _ _,
    fun x hx => smartphonePool_subset hx, ?_, ?_, ?_⟩
  · by_cases hp : cands.filter (fun s => (safe_cast s.prix_dh).isSome) = []
    · have hasc : sorted_asc cands = cands := by
        simp only [sorted_asc]
        rw [if_pos hp]
      rw [hpool, hasc]
      refine pairwise_key_of_zero _ _ ?_
      intro x hx
      have hxc : x ∈ cands := List.take_subset _ _ hx
      have : ¬((safe_cast x.prix_dh).isSome = true) := by
        intro hs
        have : x ∈ cands.filter (fun s => (safe_cast s.prix_dh).isSome) :=
          List.mem_filter.mpr ⟨hxc, hs⟩
        rw [hp] at this
        exact absurd this (List.not_mem_nil x)
      have hnone : safe_cast x.prix_dh = none :=
        Option.not_isSome_iff_eq_none.mp this
      simp [sPriceKey0, hnone]
    · have hasc : sorted_asc cands
          = pySortBy sPriceKey0
              (cands.filter fun s => (safe_cast s.prix_dh).isSome) := by
        simp only [sorted_asc]
        rw [if_neg hp]
      rw [hpool, hasc]
      exact (pairwise_pySortBy _ _).sublist (List.take_sublist _ _)
  · intro hp
    have hasc : sorted_asc cands = cands := by
      simp only [sorted_asc]
      rw [if_pos hp]
    rw [hpool, hasc]
  · intro hp
    have hasc : sorted_asc cands
        = pySortBy sPriceKey0
            (cands.filter fun s => (safe_cast s.prix_dh).isSome) := by
      simp only [sorted_asc]
      rw [if_neg hp]
    have hpoolS : smartphonePool cands "OPPORTUNITE_AchatSmartphone" brand
        = (pySortBy sPriceKey0
            (cands.filter fun s => (safe_cast s.prix_dh).isSome)).take 15 := by
      rw [hpool, hasc]
    refine ⟨hpoolS, ?_, ?_⟩
    · intro x hx
      rw [hpoolS] at hx
      simpa using
        List.of_mem_filter (mem_pySortBy.mp (List.take_subset _ _ hx))
    · intro x hx y hy hySome hynot
      rw [hpoolS] at hx hynot
      have hyS : y ∈ pySortBy sPriceKey0
          (cands.filter fun s => (safe_cast s.prix_dh).isSome) :=
        mem_pySortBy.mpr (List.mem_filter.mpr ⟨hy, hySome⟩)
      rw [← List.take_append_drop 15
        (pySortBy sPriceKey0
          (cands.filter fun s => (safe_cast s.prix_dh).isSome))] at hyS
      rcases List.mem_append.mp hyS with hyTake | hyDrop
      · exact absurd hyTake hynot
      · exact pairwise_take_drop (pairwise_pySortBy _ _) 15 x hx y hyDrop

/-- Witness for C3 as amended, at the two-record fixture list. -/
theorem C3_amended_witness :
    (∃ r, select_smartphone_candidate [sS, sNoPrice]
        "OPPORTUNITE_AchatSmartphone" "" 1 = some r ∧
      r ∈ smartphonePool [sS, sNoPrice] "OPPORTUNITE_AchatSmartphone" "") ∧
    (smartphonePool [sS, sNoPrice] "OPPORTUNITE_AchatSmartphone" "").length
      ≤ 15 ∧
    (∀ x ∈ smartphonePool [sS, sNoPrice] "OPPORTUNITE_AchatSmartphone" "",
      x ∈ [sS, sNoPrice]) ∧
    (smartphonePool [sS, sNoPrice] "OPPORTUNITE_AchatSmartphone" "").Pairwise
      (fun a b => sPriceKey0 a ≤ sPriceKey0 b) ∧
    ([sS, sNoPrice].filter (fun s => (safe_cast s.prix_dh).isSome) = [] →
      smartphonePool [sS, sNoPrice] "OPPORTUNITE_AchatSmartphone" ""
        = [sS, sNoPrice].take 15) ∧
    ([sS, sNoPrice].filter (fun s => (safe_cast s.prix_dh).isSome) ≠ [] →
      smartphonePool [sS, sNoPrice] "OPPORTUNITE_AchatSmartphone" ""
        = (pySortBy sPriceKey0
            ([sS, sNoPrice].filter fun s => (safe_cast s.prix_dh).isSome)).take
            15 ∧
      (∀ x ∈ smartphonePool [sS, sNoPrice] "OPPORTUNITE_AchatSmartphone" "",
        (safe_cast x.prix_dh).isSome) ∧
      ∀ x ∈ smartphonePool [sS, sNoPrice] "OPPORTUNITE_AchatSmartphone" "",
        ∀ y ∈ [sS, sNoPrice], (safe_cast y.prix_dh).isSome →
          y ∉ smartphonePool [sS, sNoPrice] "OPPORTUNITE_AchatSmartphone" "" →
          sPriceKey0 x ≤ sPriceKey0 y) :=
  C3_amended [sS, sNoPrice] "" 1 (by decide)

end MarketingSMS
